import Mathlib

/-!
Shallow embedding of the web_assets_converter program (src/main.rs).

The program mirrors a source asset tree into a destination tree. For every
recognized image it produces up to three derivatives (standard, high,
thumbnail) by invoking an external transcoding command, with incremental
regeneration and a size-regression fallback; other regular files below a
size cutoff are copied verbatim.

Modelling conventions:
- a path is a list of components; a component (file or directory name) is a
  list of characters;
- the filesystem is an association list from paths to byte lists, most
  recent write first; directory creation is a no-op in the model;
- the external command (ImageMagick convert) is an oracle: for a given
  source path and tier it either fails to spawn, runs and writes some
  bytes at the destination, or runs and produces no output;
- a call of the Rust metadata().unwrap() on a missing file is modelled as
  an explicit panicked outcome.
-/

namespace WebAssets

/-- A path component (one file or directory name), as a list of characters. -/
abbrev Name := List Char

/-- A filesystem path: a list of components, the last one being the file name. -/
abbrev FsPath := List Name

/-- File contents, as a list of bytes. -/
abbrev Bytes := List Nat

/-- The filesystem: an association list from paths to contents; the most
recent write for a path comes first. -/
abbrev Fs := List (FsPath × Bytes)

/-- Command-line arguments (struct Args in main.rs), with the two path
arguments already resolved into components. -/
structure Args where
  asset_path : FsPath
  destination_path : FsPath
  max_file_size : Nat
  clean : Bool
deriving DecidableEq

/-- The three derivative tiers produced by convert_image. -/
inductive Tier where
  | standard
  | high
  | thumb
deriving DecidableEq

/-- Result of one invocation of the external convert command: the spawn can
fail (the question-mark on output() in the Rust code), or the command runs
and either writes bytes at the destination path or produces no output
there (for example when convert itself exits with an error, which the
program never checks). -/
inductive TrResult where
  | spawnError
  | wrote (b : Bytes)
  | noOutput
deriving DecidableEq

/-- The external transcoder as an oracle: the outcome of running convert on
a given source for a given tier. -/
abbrev Transcoder := FsPath → Tier → TrResult

/-- Error kinds surfaced by the program (section 7 of the spec). -/
inductive Err where
  | pathError
  | transcodeError
  | ioError
  | selfCopyError
deriving DecidableEq

/-- Look up the contents of a file; none when no file exists at the path. -/
def lookupFs (fs : Fs) (p : FsPath) : Option Bytes :=
  match fs with
  | [] => none
  | (q, b) :: rest => if q = p then some b else lookupFs rest p

/-- Write (create or overwrite) a file. -/
def writeFs (fs : Fs) (p : FsPath) (b : Bytes) : Fs :=
  (p, b) :: fs

/-- Whether a file exists at the path (Rust Path::exists). -/
def existsFile (fs : Fs) (p : FsPath) : Bool :=
  (lookupFs fs p).isSome

/-- Byte length of the file at the path (Rust metadata().len()), none when
the metadata read fails because no file is there. -/
def fileLen (fs : Fs) (p : FsPath) : Option Nat :=
  (lookupFs fs p).map List.length

/-- Split a character list at its last dot: some (st, ex) when the list is
st ++ dot ++ ex with no dot in ex; none when the list has no dot. -/
def splitLastDot : Name → Option (Name × Name)
  | [] => none
  | c :: cs =>
    match splitLastDot cs with
    | some (st, ex) => some (c :: st, ex)
    | none => if c = '.' then some ([], cs) else none

/-- File stem and extension of a file name, with Rust Path semantics: the
extension is the portion after the last dot, and a dot at the very start
of the name (a hidden file) does not begin an extension. -/
def fileStemExt (n : Name) : Name × Option Name :=
  match n with
  | [] => ([], none)
  | c :: cs =>
    match splitLastDot cs with
    | some (st, ex) => (c :: st, some ex)
    | none => (n, none)

/-- The file name of a path: its last component (empty for the empty path). -/
def fileName (p : FsPath) : Name :=
  p.reverse.headD []

/-- Replace the last component of a path (Rust set_file_name). -/
def withFileName (p : FsPath) (n : Name) : FsPath :=
  p.dropLast ++ [n]

/-- Replace the extension of the file name (Rust set_extension with a
non-empty new extension). -/
def setExtension (p : FsPath) (e : Name) : FsPath :=
  withFileName p ((fileStemExt (fileName p)).1 ++ '.' :: e)

/-- ASCII lowercasing of a name, the fragment of Rust str::to_lowercase
exercised by the extension comparisons of this program. -/
def asciiLower (n : Name) : Name :=
  n.map (fun c => if 'A' ≤ c ∧ c ≤ 'Z' then Char.ofNat (c.toNat + 32) else c)

/-- Strip a root from the front of a path (Rust Path::strip_prefix at the
component level): some rest when p is root followed by rest. -/
def stripRoot (root p : FsPath) : Option FsPath :=
  match root, p with
  | [], rest => some rest
  | _ :: _, [] => none
  | r :: rs, c :: cs => if c = r then stripRoot rs cs else none

/-- Destination path of a source file (get_destination_path in main.rs):
strip the asset root, then append the remainder to the destination root. -/
def get_destination_path (source : FsPath) (args : Args) : Option FsPath :=
  match stripRoot args.asset_path source with
  | some rel => some (args.destination_path ++ rel)
  | none => none

/-- The png extension as written in the comparison in convert_image. -/
def pngExt : Name := "png".toList

/-- The jpg extension that png destinations are rewritten to. -/
def jpgExt : Name := "jpg".toList

/-- Extension normalization at the start of convert_image: when the
destination extension lowercases to png, the extension is rewritten to
jpg; every other extension is kept unchanged. Takes the mapped base path
and its extension (whose unwrap has already been checked by the caller). -/
def normBase (dp0 : FsPath) (e0 : Name) : FsPath :=
  if asciiLower e0 = pngExt then setExtension dp0 jpgExt else dp0

/-- Suffix and dot inserted into the high-tier file name, from the Rust
format string stem_high.ext. -/
def highSfx : Name := "_high.".toList

/-- Suffix and dot inserted into the thumbnail file name, from the Rust
format string stem_thumb.ext. -/
def thumbSfx : Name := "_thumb.".toList

/-- Tier file name construction: stem, then the suffix with its dot, then
the extension of the normalized base name. -/
def tierPath (base : FsPath) (sfx : Name) : FsPath :=
  withFileName base
    ((fileStemExt (fileName base)).1 ++ sfx ++ ((fileStemExt (fileName base)).2.getD []))

/-- Destination path of the high-resolution derivative. -/
def highPath (base : FsPath) : FsPath := tierPath base highSfx

/-- Destination path of the thumbnail derivative. -/
def thumbPath (base : FsPath) : FsPath := tierPath base thumbSfx

/-- State carried through convert_image: the filesystem, the list of tiers
for which the external transcoder was invoked, and the list of tiers for
which the fallback size comparison was performed. -/
structure CState where
  fs : Fs
  calls : List Tier
  cmps : List Tier
deriving DecidableEq

/-- Outcome of a step of convert_image: normal continuation, an error
returned to the caller, or a panic of one of the unwrap calls. -/
inductive StepR where
  | ok (s : CState)
  | err (e : Err) (s : CState)
  | panicked (s : CState)
deriving DecidableEq

/-- The state carried by any step outcome. -/
def StepR.state : StepR → CState
  | .ok s => s
  | .err _ s => s
  | .panicked s => s

/-- The fallback size comparison (lines 142-152 and 177-185 of main.rs):
read the byte lengths of the derivative at dp and of the source, panicking
on the unwrap if either file is missing; when the derivative is strictly
larger, overwrite copyDest with a verbatim copy of the source. For the
standard tier copyDest is the pre-normalization destination path; for the
high tier it is the derivative path itself. -/
def fallbackCheck (sp dp copyDest : FsPath) (t : Tier) (s : CState) : StepR :=
  match lookupFs s.fs dp with
  | none => .panicked s
  | some db =>
    match lookupFs s.fs sp with
    | none => .panicked s
    | some sb =>
      if sb.length < db.length then
        .ok ⟨writeFs s.fs copyDest sb, s.calls, s.cmps ++ [t]⟩
      else
        .ok ⟨s.fs, s.calls, s.cmps ++ [t]⟩

/-- Standard tier (lines 126-152): regenerate when clean is set or the
destination is missing, then always run the fallback size comparison,
whose copy target is the pre-normalization destination path dp0. -/
def stdStep (tr : Transcoder) (args : Args) (sp dpN dp0 : FsPath) (s : CState) : StepR :=
  if args.clean || !(existsFile s.fs dpN) then
    match tr sp Tier.standard with
    | .spawnError => .err .transcodeError ⟨s.fs, s.calls ++ [Tier.standard], s.cmps⟩
    | .wrote b =>
      fallbackCheck sp dpN dp0 Tier.standard
        ⟨writeFs s.fs dpN b, s.calls ++ [Tier.standard], s.cmps⟩
    | .noOutput =>
      fallbackCheck sp dpN dp0 Tier.standard ⟨s.fs, s.calls ++ [Tier.standard], s.cmps⟩
  else
    fallbackCheck sp dpN dp0 Tier.standard s

/-- High tier (lines 153-188): unwrap stem and extension of the base name,
regenerate when clean is set or the destination is missing, and only in
that case run the fallback size comparison, copying onto the high path. -/
def highStep (tr : Transcoder) (args : Args) (sp base : FsPath) (s : CState) : StepR :=
  match (fileStemExt (fileName base)).2 with
  | none => .panicked s
  | some _ =>
    if args.clean || !(existsFile s.fs (highPath base)) then
      match tr sp Tier.high with
      | .spawnError => .err .transcodeError ⟨s.fs, s.calls ++ [Tier.high], s.cmps⟩
      | .wrote b =>
        fallbackCheck sp (highPath base) (highPath base) Tier.high
          ⟨writeFs s.fs (highPath base) b, s.calls ++ [Tier.high], s.cmps⟩
      | .noOutput =>
        fallbackCheck sp (highPath base) (highPath base) Tier.high
          ⟨s.fs, s.calls ++ [Tier.high], s.cmps⟩
    else
      .ok s

/-- Thumbnail tier (lines 189-209): unwrap stem and extension of the base
name and regenerate when clean is set or the destination is missing; no
fallback comparison exists for this tier in the code. -/
def thumbStep (tr : Transcoder) (args : Args) (sp base : FsPath) (s : CState) : StepR :=
  match (fileStemExt (fileName base)).2 with
  | none => .panicked s
  | some _ =>
    if args.clean || !(existsFile s.fs (thumbPath base)) then
      match tr sp Tier.thumb with
      | .spawnError => .err .transcodeError ⟨s.fs, s.calls ++ [Tier.thumb], s.cmps⟩
      | .wrote b => .ok ⟨writeFs s.fs (thumbPath base) b, s.calls ++ [Tier.thumb], s.cmps⟩
      | .noOutput => .ok ⟨s.fs, s.calls ++ [Tier.thumb], s.cmps⟩
    else
      .ok s

/-- The function convert_image of main.rs: map the source path into the
destination tree, unwrap its extension and normalize png to jpg, then run
the standard, high and thumbnail tier steps in order, propagating the
first error or panic. -/
def convert_image (tr : Transcoder) (args : Args) (source_path : FsPath) (fs : Fs) : StepR :=
  match get_destination_path source_path args with
  | none => .err .pathError ⟨fs, [], []⟩
  | some dp0 =>
    match (fileStemExt (fileName dp0)).2 with
    | none => .panicked ⟨fs, [], []⟩
    | some e0 =>
      let base := normBase dp0 e0
      match stdStep tr args source_path base dp0 ⟨fs, [], []⟩ with
      | .ok s1 =>
        match highStep tr args source_path base s1 with
        | .ok s2 => thumbStep tr args source_path base s2
        | r => r
      | r => r

/-- The function copy_file_as_is of main.rs: strip the asset root (a
question-mark error when the file is not under it), refuse to copy a file
onto itself, then copy the bytes to the destination. -/
def copy_file_as_is (file : FsPath) (args : Args) (fs : Fs) : Option Err × Fs :=
  match stripRoot args.asset_path file with
  | none => (some .pathError, fs)
  | some rel =>
    let new_path := args.destination_path ++ rel
    if new_path = file then
      (some .selfCopyError, fs)
    else
      match lookupFs fs file with
      | some b => (none, writeFs fs new_path b)
      | none => (some .ioError, fs)

/-- An entry yielded by the directory walk: its path and whether it is a
regular file (directories are also yielded by walkdir). -/
structure Entry where
  path : FsPath
  isFile : Bool
deriving DecidableEq

/-- The extension literals of the match in the main loop (line 52). -/
def imageExts : List Name :=
  ["jpg".toList, "JPG".toList, "png".toList, "PNG".toList, "jpeg".toList]

/-- The routing test of the main loop: the entry path has an extension and
it is literally one of jpg, JPG, png, PNG, jpeg. -/
def isImageEntry (p : FsPath) : Bool :=
  match (fileStemExt (fileName p)).2 with
  | some x => decide (x ∈ imageExts)
  | none => false

/-- Where the main loop routes an entry: to convert_image, to the plain
file branch, or nowhere. -/
inductive Route where
  | image
  | plain
  | skipped
deriving DecidableEq

/-- The classification performed by the main loop (lines 51-75): an entry
whose extension literally matches the image set goes to convert_image,
regardless of whether it is a file or a directory; any other regular file
goes to the plain-file branch; everything else is skipped. -/
def routeEntry (e : Entry) : Route :=
  if isImageEntry e.path then .image
  else if e.isFile then .plain
  else .skipped

/-- Outcome of the main loop over the walked entries: normal completion,
abort through the question-mark on convert_image, or a panic of an unwrap.
The reported list collects the paths whose plain copy failed and was
printed to the error stream. -/
inductive RunResult where
  | ok (fs : Fs) (reported : List FsPath)
  | fatal (e : Err) (fs : Fs) (reported : List FsPath)
  | panicked (fs : Fs) (reported : List FsPath)
deriving DecidableEq

/-- The main loop of main.rs (lines 47-76) over a list of walked entries:
image entries go to convert_image and its error aborts the whole loop
through the question-mark; other regular files are size-gated (strictly
below max_file_size MiB) and copied, a copy failure being reported and the
loop continuing; everything else is skipped. -/
def runEntries (tr : Transcoder) (args : Args) :
    List Entry → Fs → List FsPath → RunResult
  | [], fs, rep => .ok fs rep
  | e :: rest, fs, rep =>
    match routeEntry e with
    | .image =>
      match convert_image tr args e.path fs with
      | .ok s => runEntries tr args rest s.fs rep
      | .err er s => .fatal er s.fs rep
      | .panicked s => .panicked s.fs rep
    | .plain =>
      match lookupFs fs e.path with
      | none => .panicked fs rep
      | some b =>
        if b.length < args.max_file_size * 2 ^ 20 then
          match copy_file_as_is e.path args fs with
          | (none, fs2) => runEntries tr args rest fs2 rep
          | (some _, fs2) => runEntries tr args rest fs2 (rep ++ [e.path])
        else
          runEntries tr args rest fs rep
    | .skipped => runEntries tr args rest fs rep

/-! Concrete scenarios used to evaluate the model on specific inputs. -/

/-- Arguments for the C1 scenario: a clean rebuild from assets to dist. -/
def c1Args : Args := ⟨["assets".toList], ["dist".toList], 20, true⟩

/-- A png source image of 2 bytes. -/
def c1Src : FsPath := ["assets".toList, "photo.png".toList]

/-- Filesystem holding only the 2-byte png source. -/
def c1Fs : Fs := [(c1Src, [0, 0])]

/-- A transcoder whose every derivative is 3 bytes, larger than the source. -/
def c1Tr : Transcoder := fun _ _ => .wrote [1, 2, 3]

/-- The final state of convert_image on the C1 scenario: the thumbnail keeps
the 3-byte derivative, the high tier was overwritten with the source bytes,
and the standard fallback copied the source to photo.png rather than to the
tier destination photo.jpg. -/
def c1Final : CState :=
  ⟨[(["dist".toList, "photo_thumb.jpg".toList], [1, 2, 3]),
    (["dist".toList, "photo_high.jpg".toList], [0, 0]),
    (["dist".toList, "photo_high.jpg".toList], [1, 2, 3]),
    (["dist".toList, "photo.png".toList], [0, 0]),
    (["dist".toList, "photo.jpg".toList], [1, 2, 3]),
    (c1Src, [0, 0])],
   [Tier.standard, Tier.high, Tier.thumb], [Tier.standard, Tier.high]⟩

/-- Arguments for the C2 scenario: an incremental run. -/
def c2Args : Args := ⟨["assets".toList], ["dist".toList], 20, false⟩

/-- An image entry walked before a plain file. -/
def c2Img : Entry := ⟨["assets".toList, "a.jpg".toList], true⟩

/-- A plain text entry walked after the image. -/
def c2Plain : Entry := ⟨["assets".toList, "b.txt".toList], true⟩

/-- Filesystem holding both source files. -/
def c2Fs : Fs := [(c2Img.path, [5]), (c2Plain.path, [7])]

/-- A transcoder whose spawn always fails. -/
def c2Tr : Transcoder := fun _ _ => .spawnError

/-- Arguments whose destination root equals the asset root, so that every
plain copy is a self copy and fails. -/
def c2wArgs : Args := ⟨["r".toList], ["r".toList], 20, false⟩

/-- A plain entry under that root. -/
def c2wPlain : Entry := ⟨["r".toList, "b.txt".toList], true⟩

/-- Filesystem holding that plain file. -/
def c2wFs : Fs := [(c2wPlain.path, [1])]

/-- Arguments for the C3 scenario: incremental run with a pre-existing
standard destination. -/
def c3Args : Args := ⟨["assets".toList], ["dist".toList], 20, false⟩

/-- The source image of the C3 scenario. -/
def c3Src : FsPath := ["assets".toList, "a.jpg".toList]

/-- Filesystem with the source and an already existing standard derivative. -/
def c3Fs : Fs := [(c3Src, [5]), (["dist".toList, "a.jpg".toList], [4])]

/-- A transcoder writing 1-byte derivatives. -/
def c3Tr : Transcoder := fun _ _ => .wrote [9]

/-- Final state of the C3 scenario: the standard tier was skipped, high and
thumbnail were generated. -/
def c3Final : CState :=
  ⟨[(["dist".toList, "a_thumb.jpg".toList], [9]),
    (["dist".toList, "a_high.jpg".toList], [9]),
    (c3Src, [5]), (["dist".toList, "a.jpg".toList], [4])],
   [Tier.high, Tier.thumb], [Tier.standard, Tier.high]⟩

/-- Arguments for the C4 counterexample. -/
def c4Args : Args := ⟨["assets".toList], ["dist".toList], 20, false⟩

/-- Arguments for the C5 witness scenario: a clean rebuild. -/
def c5Args : Args := ⟨["assets".toList], ["dist".toList], 20, true⟩

/-- The source image of the C5 witness scenario. -/
def c5Src : FsPath := ["assets".toList, "a.jpg".toList]

/-- Filesystem holding that source. -/
def c5Fs : Fs := [(c5Src, [9, 9])]

/-- A transcoder whose spawn always fails. -/
def c5Tr : Transcoder := fun _ _ => .spawnError

/-- Arguments for the C5 counterexample scenario: a clean rebuild. -/
def c5xArgs : Args := ⟨["assets".toList], ["dist".toList], 20, true⟩

/-- The source image of the C5 counterexample. -/
def c5xSrc : FsPath := ["assets".toList, "a.jpg".toList]

/-- Filesystem holding that source. -/
def c5xFs : Fs := [(c5xSrc, [9, 9])]

/-- A transcoder that runs but produces no output for the thumbnail tier and
writes 1 byte for the other tiers. -/
def c5xTr : Transcoder := fun _ t =>
  match t with
  | .thumb => .noOutput
  | _ => .wrote [1]

/-- Final state of the C5 counterexample: no thumbnail file exists, yet the
outcome is ok. -/
def c5xFinal : CState :=
  ⟨[(["dist".toList, "a_high.jpg".toList], [1]),
    (["dist".toList, "a.jpg".toList], [1]), (c5xSrc, [9, 9])],
   [Tier.standard, Tier.high, Tier.thumb], [Tier.standard, Tier.high]⟩

/-- Arguments for the C6 scenario: incremental run. -/
def c6Args : Args := ⟨["assets".toList], ["dist".toList], 20, false⟩

/-- The source image of the C6 scenario. -/
def c6Src : FsPath := ["assets".toList, "a.jpg".toList]

/-- Filesystem with source and a pre-existing standard destination, so the
standard tier is skipped. -/
def c6Fs : Fs := [(c6Src, [7]), (["dist".toList, "a.jpg".toList], [3])]

/-- A transcoder writing 1-byte derivatives. -/
def c6Tr : Transcoder := fun _ _ => .wrote [1]

/-- Final state of the C6 scenario: the standard tier was never regenerated
but its size comparison was still performed. -/
def c6Final : CState :=
  ⟨[(["dist".toList, "a_thumb.jpg".toList], [1]),
    (["dist".toList, "a_high.jpg".toList], [1]),
    (c6Src, [7]), (["dist".toList, "a.jpg".toList], [3])],
   [Tier.high, Tier.thumb], [Tier.standard, Tier.high]⟩

/-- A regular file whose extension JPEG matches the image set only up to
case, which the program does not accept. -/
def c7Jpeg : Entry := ⟨["assets".toList, "a.JPEG".toList], true⟩

/-- A directory whose name carries a matching image extension. -/
def c7Dir : Entry := ⟨["assets".toList, "d.png".toList], false⟩

/-- A regular file entry used by the C7 witness. -/
def c7File : Entry := ⟨["assets".toList, "notes.txt".toList], true⟩

/-- A transcoder for the C8 witness runs (never reached). -/
def c8Tr : Transcoder := fun _ _ => .spawnError

/-- Arguments with a zero size cutoff: every plain file is skipped. -/
def c8aArgs : Args := ⟨["assets".toList], ["dist".toList], 0, false⟩

/-- Arguments with the default 20 MiB cutoff. -/
def c8bArgs : Args := ⟨["assets".toList], ["dist".toList], 20, false⟩

/-- The plain file entry of the C8 witness. -/
def c8Entry : Entry := ⟨["assets".toList, "b.bin".toList], true⟩

/-- Filesystem holding that 1-byte plain file. -/
def c8Fs : Fs := [(c8Entry.path, [1])]

/-- File used by the C9 witness: its mapped destination equals itself. -/
def c9File : FsPath := ["r".toList, "x".toList]

/-- Arguments whose destination root equals the asset root. -/
def c9Args : Args := ⟨["r".toList], ["r".toList], 20, false⟩

/-- Filesystem holding that file. -/
def c9Fs : Fs := [(c9File, [3, 4])]

/-- Arguments for the C10 witness scenario: a clean rebuild. -/
def c10Args : Args := ⟨["assets".toList], ["dist".toList], 20, true⟩

/-- The source image of the C10 witness. -/
def c10Src : FsPath := ["assets".toList, "a.jpg".toList]

/-- Its mapped destination path. -/
def c10Dp0 : FsPath := ["dist".toList, "a.jpg".toList]

/-- Filesystem holding that source. -/
def c10Fs : Fs := [(c10Src, [2])]

/-- A transcoder writing a 1-byte output for every tier. -/
def c10Tr : Transcoder := fun _ _ => .wrote [1]

/-! Helper lemmas about names and paths. -/

theorem splitLastDot_eq_none {n : Name} : splitLastDot n = none ↔ '.' ∉ n := by
  induction n with
  | nil => simp [splitLastDot]
  | cons c cs ih =>
    rw [splitLastDot]
    cases h : splitLastDot cs with
    | none =>
      by_cases hc : c = '.'
      · subst hc; simp
      · simp [hc, List.mem_cons, Ne.symm hc, ← ih, h]
    | some p =>
      have : '.' ∈ cs := by
        by_contra hmem
        rw [ih.mpr hmem] at h
        exact Option.noConfusion h
      simp [List.mem_cons, this]

theorem splitLastDot_eq_some {n st ex : Name} :
    splitLastDot n = some (st, ex) ↔ (n = st ++ '.' :: ex ∧ '.' ∉ ex) := by
  induction n generalizing st ex with
  | nil =>
    simp only [splitLastDot]
    constructor
    · intro h; exact Option.noConfusion h
    · rintro ⟨h, -⟩; exact absurd h (by simp)
  | cons c cs ih =>
    rw [splitLastDot]
    cases h : splitLastDot cs with
    | none =>
      have hcs : '.' ∉ cs := splitLastDot_eq_none.mp h
      by_cases hc : c = '.'
      · subst hc
        constructor
        · intro he
          rw [if_pos rfl] at he
          obtain ⟨h1, h2⟩ := Prod.mk.injEq .. ▸ Option.some.injEq .. ▸ he
          refine ⟨?_, ?_⟩
          · rw [← h1, ← h2]; rfl
          · rw [← h2]; exact hcs
        · rintro ⟨h1, h2⟩
          rw [if_pos rfl]
          cases st with
          | nil =>
            simp only [List.nil_append, List.cons.injEq] at h1
            rw [h1.2]
          | cons d st2 =>
            simp only [List.cons_append, List.cons.injEq] at h1
            exact absurd (h1.2 ▸ List.mem_append_right st2 (List.mem_cons_self '.' ex)) hcs
      · rw [if_neg hc]
        constructor
        · intro he; exact Option.noConfusion he
        · rintro ⟨h1, h2⟩
          cases st with
          | nil =>
            simp only [List.nil_append, List.cons.injEq] at h1
            exact absurd h1.1 hc
          | cons d st2 =>
            simp only [List.cons_append, List.cons.injEq] at h1
            have : splitLastDot cs = some (st2, ex) := (ih).mpr ⟨h1.2, h2⟩
            rw [h] at this
            exact Option.noConfusion this
    | some p =>
      obtain ⟨st1, ex1⟩ := p
      have hdec := ih.mp h
      constructor
      · intro he
        obtain ⟨h1, h2⟩ := Prod.mk.injEq .. ▸ Option.some.injEq .. ▸ he
        refine ⟨?_, h2 ▸ hdec.2⟩
        rw [← h1, ← h2, hdec.1]; rfl
      · rintro ⟨h1, h2⟩
        cases st with
        | nil =>
          simp only [List.nil_append, List.cons.injEq] at h1
          exact absurd (h1.2 ▸ hdec.1 ▸ List.mem_append_right st1 (List.mem_cons_self '.' ex1))
            (h1.2 ▸ h2)
        | cons d st2 =>
          simp only [List.cons_append, List.cons.injEq] at h1
          have : splitLastDot cs = some (st2, ex) := ih.mpr ⟨h1.2, h2⟩
          rw [h] at this
          obtain ⟨h3, h4⟩ := Prod.mk.injEq .. ▸ Option.some.injEq .. ▸ this
          simp [h1.1, h3, h4]

theorem fileStemExt_concat {st ex : Name} (h1 : st ≠ []) (h2 : '.' ∉ ex) :
    fileStemExt (st ++ '.' :: ex) = (st, some ex) := by
  cases st with
  | nil => exact absurd rfl h1
  | cons c st2 =>
    rw [List.cons_append, fileStemExt, splitLastDot_eq_some.mpr ⟨rfl, h2⟩]

theorem fileStemExt_snd_some {n ex : Name} (h : (fileStemExt n).2 = some ex) :
    n = (fileStemExt n).1 ++ '.' :: ex ∧ '.' ∉ ex ∧ (fileStemExt n).1 ≠ [] := by
  cases n with
  | nil => exact absurd h (by simp [fileStemExt])
  | cons c cs =>
    cases hs : splitLastDot cs with
    | none => exact absurd h (by simp [fileStemExt, hs])
    | some p =>
      obtain ⟨st1, ex1⟩ := p
      obtain ⟨hd, hex⟩ := splitLastDot_eq_some.mp hs
      have hfse : fileStemExt (c :: cs) = (c :: st1, some ex1) := by
        simp [fileStemExt, hs]
      rw [hfse] at h ⊢
      obtain rfl : ex1 = ex := by simpa using h
      exact ⟨by rw [hd]; rfl, hex, by simp⟩

theorem fileName_concat (xs : FsPath) (a : Name) : fileName (xs ++ [a]) = a := by
  simp [fileName]

theorem withFileName_concat (xs : FsPath) (a n : Name) :
    withFileName (xs ++ [a]) n = xs ++ [n] := by
  simp [withFileName]

theorem stripRoot_append (root rest : FsPath) : stripRoot root (root ++ rest) = some rest := by
  induction root with
  | nil => rfl
  | cons r rs ih => simpa [stripRoot] using ih

theorem stripRoot_eq_some {root p rest : FsPath} (h : stripRoot root p = some rest) :
    p = root ++ rest := by
  induction root generalizing p with
  | nil =>
    have hp : p = rest := by simpa [stripRoot] using h
    rw [hp, List.nil_append]
  | cons r rs ih =>
    cases p with
    | nil => exact absurd h (by simp [stripRoot])
    | cons c cs =>
      rw [stripRoot] at h
      by_cases hc : c = r
      · rw [if_pos hc] at h
        rw [List.cons_append, ← hc, ih h]
      · rw [if_neg hc] at h
        exact Option.noConfusion h

theorem get_destination_path_append (args : Args) (rel : FsPath) :
    get_destination_path (args.asset_path ++ rel) args
      = some (args.destination_path ++ rel) := by
  rw [get_destination_path, stripRoot_append]

/-! Helper lemmas about the filesystem. -/

theorem lookupFs_writeFs_self (fs : Fs) (p : FsPath) (b : Bytes) :
    lookupFs (writeFs fs p b) p = some b := by
  simp [writeFs, lookupFs]

theorem lookupFs_writeFs_ne {q p : FsPath} (fs : Fs) (b : Bytes) (h : q ≠ p) :
    lookupFs (writeFs fs p b) q = lookupFs fs q := by
  simp [writeFs, lookupFs, Ne.symm h]

theorem existsFile_writeFs_mono {fs : Fs} {q : FsPath} (p : FsPath) (b : Bytes)
    (h : existsFile fs q = true) : existsFile (writeFs fs p b) q = true := by
  by_cases hq : q = p
  · subst hq; simp [existsFile, lookupFs_writeFs_self]
  · rwa [existsFile, lookupFs_writeFs_ne fs b hq]

theorem isSome_lookupFs_writeFs_mono {fs : Fs} {q : FsPath} (p : FsPath) (b : Bytes)
    (h : (lookupFs fs q).isSome = true) : (lookupFs (writeFs fs p b) q).isSome = true :=
  existsFile_writeFs_mono p b h

/-! Helper lemmas about the fallback comparison. -/

theorem fallbackCheck_state_calls (sp dp cp : FsPath) (t : Tier) (s : CState) :
    ((fallbackCheck sp dp cp t s).state).calls = s.calls := by
  rw [fallbackCheck]
  split
  · rfl
  · split
    · rfl
    · split <;> rfl

theorem fallbackCheck_state_cmps (sp dp cp : FsPath) (t : Tier) (s : CState) :
    ((fallbackCheck sp dp cp t s).state).cmps
      = s.cmps ++ (if ((lookupFs s.fs dp).isSome && (lookupFs s.fs sp).isSome) = true
                   then [t] else []) := by
  rw [fallbackCheck]
  split
  · rename_i hdb
    simp [StepR.state, hdb]
  · rename_i db hdb
    split
    · rename_i hsb
      simp [StepR.state, hdb, hsb]
    · rename_i sb hsb
      split <;> simp [StepR.state, hdb, hsb]

theorem fallbackCheck_ok_inv {sp dp cp : FsPath} {t : Tier} {s s' : CState}
    (h : fallbackCheck sp dp cp t s = .ok s') :
    (lookupFs s.fs dp).isSome = true ∧ (lookupFs s.fs sp).isSome = true := by
  rw [fallbackCheck] at h
  split at h
  · exact absurd h (by simp)
  · rename_i db hdb
    split at h
    · exact absurd h (by simp)
    · rename_i sb hsb
      simp [hdb, hsb]

theorem fallbackCheck_fs_frame {q : FsPath} (sp dp cp : FsPath) (t : Tier) (s : CState)
    (hq : q ≠ cp) :
    lookupFs ((fallbackCheck sp dp cp t s).state).fs q = lookupFs s.fs q := by
  rw [fallbackCheck]
  split
  · rfl
  · split
    · rfl
    · split
      · simp [StepR.state, lookupFs_writeFs_ne _ _ hq]
      · rfl

theorem fallbackCheck_exists_mono {q : FsPath} {s : CState} (sp dp cp : FsPath) (t : Tier)
    (h : existsFile s.fs q = true) :
    existsFile ((fallbackCheck sp dp cp t s).state).fs q = true := by
  rw [fallbackCheck]
  split
  · exact h
  · split
    · exact h
    · split
      · exact existsFile_writeFs_mono _ _ h
      · exact h

theorem fallbackCheck_ok_of {sp dp : FsPath} {s : CState} (cp : FsPath) (t : Tier)
    (hdb : (lookupFs s.fs dp).isSome = true) (hsb : (lookupFs s.fs sp).isSome = true) :
    ∃ s', fallbackCheck sp dp cp t s = .ok s' := by
  rw [fallbackCheck]
  rcases h1 : lookupFs s.fs dp with - | db
  · rw [h1] at hdb; exact absurd hdb (by simp)
  · rcases h2 : lookupFs s.fs sp with - | sb
    · rw [h2] at hsb; exact absurd hsb (by simp)
    · simp only
      split <;> exact ⟨_, rfl⟩

/-! Helper lemmas about the standard tier step. -/

theorem stdStep_state_calls (tr : Transcoder) (args : Args) (sp dpN dp0 : FsPath) (s : CState) :
    ((stdStep tr args sp dpN dp0 s).state).calls
      = s.calls ++ (if (args.clean || !(existsFile s.fs dpN)) = true
                    then [Tier.standard] else []) := by
  rw [stdStep]
  split
  · rename_i hc
    cases htr : tr sp Tier.standard
    · simp [StepR.state, hc]
    · rw [fallbackCheck_state_calls]
    · rw [fallbackCheck_state_calls]
  · rename_i hc
    rw [fallbackCheck_state_calls]
    simp [hc]

theorem stdStep_ok_cmps {tr : Transcoder} {args : Args} {sp dpN dp0 : FsPath} {s s' : CState}
    (h : stdStep tr args sp dpN dp0 s = .ok s') : s'.cmps = s.cmps ++ [Tier.standard] := by
  have key : ∀ s0 : CState, fallbackCheck sp dpN dp0 Tier.standard s0 = .ok s' →
      s'.cmps = s0.cmps ++ [Tier.standard] := by
    intro s0 h0
    have hs : ((fallbackCheck sp dpN dp0 Tier.standard s0).state) = s' := by rw [h0]; rfl
    rcases fallbackCheck_ok_inv h0 with ⟨h1, h2⟩
    rw [← hs, fallbackCheck_state_cmps, h1, h2]
    simp
  rw [stdStep] at h
  split at h
  · cases htr : tr sp Tier.standard <;> rw [htr] at h
    · exact absurd h (by simp)
    · rw [key _ h]
    · rw [key _ h]
  · rw [key _ h]

theorem stdStep_fs_frame {q : FsPath} (tr : Transcoder) (args : Args) (sp dpN dp0 : FsPath)
    (s : CState) (h1 : q ≠ dpN) (h2 : q ≠ dp0) :
    lookupFs ((stdStep tr args sp dpN dp0 s).state).fs q = lookupFs s.fs q := by
  rw [stdStep]
  split
  · cases htr : tr sp Tier.standard
    · rfl
    · rw [fallbackCheck_fs_frame _ _ _ _ _ h2]
      simp [lookupFs_writeFs_ne _ _ h1]
    · rw [fallbackCheck_fs_frame _ _ _ _ _ h2]
  · rw [fallbackCheck_fs_frame _ _ _ _ _ h2]

theorem stdStep_exists_mono {q : FsPath} {s : CState} (tr : Transcoder) (args : Args)
    (sp dpN dp0 : FsPath) (h : existsFile s.fs q = true) :
    existsFile ((stdStep tr args sp dpN dp0 s).state).fs q = true := by
  rw [stdStep]
  split
  · cases htr : tr sp Tier.standard
    · exact h
    · exact fallbackCheck_exists_mono _ _ _ _ (existsFile_writeFs_mono _ _ h)
    · exact fallbackCheck_exists_mono _ _ _ _ h
  · exact fallbackCheck_exists_mono _ _ _ _ h

theorem stdStep_no_panic (tr : Transcoder) (args : Args) (sp dpN dp0 : FsPath) (s : CState)
    (hsrc : (lookupFs s.fs sp).isSome = true)
    (hdst : (∃ b, tr sp Tier.standard = .wrote b) ∨ existsFile s.fs dpN = true) :
    (∃ s', stdStep tr args sp dpN dp0 s = .ok s')
      ∨ (∃ s', stdStep tr args sp dpN dp0 s = .err Err.transcodeError s') := by
  rw [stdStep]
  split
  · cases htr : tr sp Tier.standard
    · exact Or.inr ⟨_, rfl⟩
    · exact Or.inl (fallbackCheck_ok_of dp0 Tier.standard
        (by simp [existsFile, lookupFs_writeFs_self])
        (isSome_lookupFs_writeFs_mono _ _ hsrc))
    · rcases hdst with ⟨b, hb⟩ | hex
      · rw [htr] at hb; exact absurd hb (by simp)
      · exact Or.inl (fallbackCheck_ok_of dp0 Tier.standard hex hsrc)
  · rename_i hc
    have hex : existsFile s.fs dpN = true := by
      rcases Bool.eq_false_or_eq_true (existsFile s.fs dpN) with h | h
      · exact h
      · exact absurd (by simp [h]) hc
    exact Or.inl (fallbackCheck_ok_of dp0 Tier.standard hex hsrc)

/-! Helper lemmas about the high tier step. -/

theorem highStep_ok_calls_cmps {tr : Transcoder} {args : Args} {sp base : FsPath}
    {s s' : CState} (h : highStep tr args sp base s = .ok s') :
    s'.calls = s.calls ++ (if (args.clean || !(existsFile s.fs (highPath base))) = true
                           then [Tier.high] else [])
      ∧ s'.cmps = s.cmps ++ (if (args.clean || !(existsFile s.fs (highPath base))) = true
                             then [Tier.high] else []) := by
  have key : ∀ s0 : CState, fallbackCheck sp (highPath base) (highPath base) Tier.high s0 = .ok s' →
      s'.calls = s0.calls ∧ s'.cmps = s0.cmps ++ [Tier.high] := by
    intro s0 h0
    have hs : ((fallbackCheck sp (highPath base) (highPath base) Tier.high s0).state) = s' := by
      rw [h0]; rfl
    rcases fallbackCheck_ok_inv h0 with ⟨h1, h2⟩
    constructor
    · rw [← hs, fallbackCheck_state_calls]
    · rw [← hs, fallbackCheck_state_cmps, h1, h2]
      simp
  rw [highStep] at h
  split at h
  · exact absurd h (by simp)
  · split at h
    · rename_i hc
      cases htr : tr sp Tier.high <;> rw [htr] at h
      · exact absurd h (by simp)
      · rcases key _ h with ⟨k1, k2⟩
        rw [k1, k2, if_pos hc]
        exact ⟨rfl, rfl⟩
      · rcases key _ h with ⟨k1, k2⟩
        rw [k1, k2, if_pos hc]
        exact ⟨rfl, rfl⟩
    · rename_i hc
      have hs' : s = s' := by simpa using h
      rw [← hs', if_neg hc]
      simp

theorem highStep_fs_frame {q : FsPath} (tr : Transcoder) (args : Args) (sp base : FsPath)
    (s : CState) (hq : q ≠ highPath base) :
    lookupFs ((highStep tr args sp base s).state).fs q = lookupFs s.fs q := by
  rw [highStep]
  split
  · rfl
  · split
    · cases htr : tr sp Tier.high
      · rfl
      · rw [fallbackCheck_fs_frame _ _ _ _ _ hq]
        simp [lookupFs_writeFs_ne _ _ hq]
      · rw [fallbackCheck_fs_frame _ _ _ _ _ hq]
    · rfl

theorem highStep_exists_mono {q : FsPath} {s : CState} (tr : Transcoder) (args : Args)
    (sp base : FsPath) (h : existsFile s.fs q = true) :
    existsFile ((highStep tr args sp base s).state).fs q = true := by
  rw [highStep]
  split
  · exact h
  · split
    · cases htr : tr sp Tier.high
      · exact h
      · exact fallbackCheck_exists_mono _ _ _ _ (existsFile_writeFs_mono _ _ h)
      · exact fallbackCheck_exists_mono _ _ _ _ h
    · exact h

theorem highStep_no_panic (tr : Transcoder) (args : Args) (sp base : FsPath) (s : CState)
    {ex : Name} (hext : (fileStemExt (fileName base)).2 = some ex)
    (hsrc : (lookupFs s.fs sp).isSome = true)
    (hdst : (∃ b, tr sp Tier.high = .wrote b) ∨ existsFile s.fs (highPath base) = true) :
    (∃ s', highStep tr args sp base s = .ok s')
      ∨ (∃ s', highStep tr args sp base s = .err Err.transcodeError s') := by
  rw [highStep, hext]
  simp only
  split
  · cases htr : tr sp Tier.high
    · exact Or.inr ⟨_, rfl⟩
    · exact Or.inl (fallbackCheck_ok_of (highPath base) Tier.high
        (by simp [lookupFs_writeFs_self])
        (isSome_lookupFs_writeFs_mono _ _ hsrc))
    · rcases hdst with ⟨b, hb⟩ | hex2
      · rw [htr] at hb; exact absurd hb (by simp)
      · exact Or.inl (fallbackCheck_ok_of (highPath base) Tier.high hex2 hsrc)
  · exact Or.inl ⟨_, rfl⟩

theorem highStep_wrote_big {tr : Transcoder} {args : Args} {sp base : FsPath} {s : CState}
    {ex : Name} {b sb : Bytes}
    (hext : (fileStemExt (fileName base)).2 = some ex)
    (hc : (args.clean || !(existsFile s.fs (highPath base))) = true)
    (htr : tr sp Tier.high = .wrote b)
    (hsrc : lookupFs s.fs sp = some sb)
    (hne : sp ≠ highPath base)
    (hbig : sb.length < b.length) :
    highStep tr args sp base s
      = .ok ⟨writeFs (writeFs s.fs (highPath base) b) (highPath base) sb,
             s.calls ++ [Tier.high], s.cmps ++ [Tier.high]⟩ := by
  have hlook2 : lookupFs (writeFs s.fs (highPath base) b) sp = some sb := by
    rw [lookupFs_writeFs_ne _ _ hne, hsrc]
  simp [highStep, hext, hc, htr, fallbackCheck, lookupFs_writeFs_self, hlook2, hbig]

/-! Helper lemmas about the thumbnail tier step. -/

theorem thumbStep_state_cmps (tr : Transcoder) (args : Args) (sp base : FsPath) (s : CState) :
    ((thumbStep tr args sp base s).state).cmps = s.cmps := by
  rw [thumbStep]
  split
  · rfl
  · split
    · cases htr : tr sp Tier.thumb <;> rfl
    · rfl

theorem thumbStep_ok_calls {tr : Transcoder} {args : Args} {sp base : FsPath} {s s' : CState}
    (h : thumbStep tr args sp base s = .ok s') :
    s'.calls = s.calls ++ (if (args.clean || !(existsFile s.fs (thumbPath base))) = true
                           then [Tier.thumb] else []) := by
  rw [thumbStep] at h
  split at h
  · exact absurd h (by simp)
  · split at h
    · rename_i hc
      cases htr : tr sp Tier.thumb <;> rw [htr] at h
      · exact absurd h (by simp)
      · rename_i b
        obtain rfl : s' = ⟨writeFs s.fs (thumbPath base) b, s.calls ++ [Tier.thumb], s.cmps⟩ := by
          simpa using h.symm
        rw [if_pos hc]
      · obtain rfl : s' = ⟨s.fs, s.calls ++ [Tier.thumb], s.cmps⟩ := by
          simpa using h.symm
        rw [if_pos hc]
    · rename_i hc
      have hs' : s = s' := by simpa using h
      rw [← hs', if_neg hc]
      simp

theorem thumbStep_state_cmps_ok {tr : Transcoder} {args : Args} {sp base : FsPath}
    {s s' : CState} (h : thumbStep tr args sp base s = .ok s') : s'.cmps = s.cmps := by
  have hs : ((thumbStep tr args sp base s).state) = s' := by rw [h]; rfl
  rw [← hs, thumbStep_state_cmps]

theorem thumbStep_fs_frame {q : FsPath} (tr : Transcoder) (args : Args) (sp base : FsPath)
    (s : CState) (hq : q ≠ thumbPath base) :
    lookupFs ((thumbStep tr args sp base s).state).fs q = lookupFs s.fs q := by
  rw [thumbStep]
  split
  · rfl
  · split
    · cases htr : tr sp Tier.thumb
      · rfl
      · simp [StepR.state, lookupFs_writeFs_ne _ _ hq]
      · rfl
    · rfl

theorem thumbStep_no_panic (tr : Transcoder) (args : Args) (sp base : FsPath) (s : CState)
    {ex : Name} (hext : (fileStemExt (fileName base)).2 = some ex) :
    (∃ s', thumbStep tr args sp base s = .ok s')
      ∨ (∃ s', thumbStep tr args sp base s = .err Err.transcodeError s') := by
  rw [thumbStep, hext]
  simp only
  split
  · cases htr : tr sp Tier.thumb
    · exact Or.inr ⟨_, rfl⟩
    · exact Or.inl ⟨_, rfl⟩
    · exact Or.inl ⟨_, rfl⟩
  · exact Or.inl ⟨_, rfl⟩

/-! Lemmas about the computed tier destination paths. -/

theorem fileName_withFileName (p : FsPath) (n : Name) : fileName (withFileName p n) = n := by
  rw [withFileName]
  exact fileName_concat _ _

theorem normBase_ext {dp0 : FsPath} {e0 : Name} (h : (fileStemExt (fileName dp0)).2 = some e0) :
    (fileStemExt (fileName (normBase dp0 e0))).2
      = some (if asciiLower e0 = pngExt then jpgExt else e0) := by
  obtain ⟨hdec, hex, hne⟩ := fileStemExt_snd_some h
  by_cases hp : asciiLower e0 = pngExt
  · rw [normBase, if_pos hp, if_pos hp, setExtension, fileName_withFileName,
      fileStemExt_concat hne (by decide)]
  · rw [normBase, if_neg hp, if_neg hp, h]

theorem highPath_ne_thumbPath (base : FsPath) : highPath base ≠ thumbPath base := by
  intro h
  have h2 := congrArg fileName h
  rw [highPath, thumbPath, tierPath, tierPath, fileName_withFileName, fileName_withFileName] at h2
  have h3 := congrArg List.length h2
  simp only [List.length_append] at h3
  have h6 : highSfx.length = 6 := rfl
  have h7 : thumbSfx.length = 7 := rfl
  rw [h6, h7] at h3
  omega

/-! Decomposition of a successful convert_image run into its tier steps. -/

theorem convert_image_ok_decomp {tr : Transcoder} {args : Args} {sp : FsPath} {fs : Fs}
    {dp0 : FsPath} {e0 : Name} {s' : CState}
    (h1 : get_destination_path sp args = some dp0)
    (h2 : (fileStemExt (fileName dp0)).2 = some e0)
    (h3 : convert_image tr args sp fs = .ok s') :
    ∃ s1 s2, stdStep tr args sp (normBase dp0 e0) dp0 ⟨fs, [], []⟩ = .ok s1
      ∧ highStep tr args sp (normBase dp0 e0) s1 = .ok s2
      ∧ thumbStep tr args sp (normBase dp0 e0) s2 = .ok s' := by
  rw [convert_image, h1] at h3
  simp only [h2] at h3
  split at h3
  · rename_i s1 hstd
    split at h3
    · rename_i s2 hhigh
      exact ⟨s1, s2, hstd, hhigh, h3⟩
    · rename_i hno
      exact absurd h3 (hno s')
  · rename_i hno
    exact absurd h3 (hno s')

/-! Lemmas about the plain-file copy. -/

theorem copy_file_as_is_self {file : FsPath} {args : Args} {rel : FsPath} (fs : Fs)
    (h1 : stripRoot args.asset_path file = some rel)
    (h2 : args.destination_path ++ rel = file) :
    copy_file_as_is file args fs = (some Err.selfCopyError, fs) := by
  simp [copy_file_as_is, h1, h2]

theorem copy_file_as_is_write {file : FsPath} {args : Args} {rel : FsPath} {fs : Fs} {b : Bytes}
    (h1 : stripRoot args.asset_path file = some rel)
    (h2 : args.destination_path ++ rel ≠ file)
    (h3 : lookupFs fs file = some b) :
    copy_file_as_is file args fs = (none, writeFs fs (args.destination_path ++ rel) b) := by
  simp [copy_file_as_is, h1, h2, h3]

/-! Claim theorems. -/

/-- Claim C9 (confirmed): when the computed destination path of a plain-file
copy equals the source path, copy_file_as_is fails with SelfCopyError and
performs no filesystem modification: the returned filesystem is exactly the
input one, so neither the source nor any destination file is created,
truncated, or changed. -/
theorem claim_C9_self_copy_guard (file : FsPath) (args : Args) (fs : Fs) (rel : FsPath)
    (h1 : stripRoot args.asset_path file = some rel)
    (h2 : args.destination_path ++ rel = file) :
    copy_file_as_is file args fs = (some Err.selfCopyError, fs) :=
  copy_file_as_is_self fs h1 h2

/-- Witness for claim C9 at a concrete self-copy input. -/
theorem claim_C9_self_copy_guard_witness :
    copy_file_as_is c9File c9Args c9Fs = (some Err.selfCopyError, c9Fs) :=
  claim_C9_self_copy_guard c9File c9Args c9Fs ["x".toList] (by decide) (by decide)

/-- Claim C8 (confirmed): for a non-image regular file present in the
filesystem and lying under the asset root, a byte size of at least
max_file_size mebibytes makes the main loop skip it entirely, without error
and without writing anything, while a size strictly below the cutoff makes
the loop continue with a filesystem in which the mapped destination holds
exactly the source bytes. -/
theorem claim_C8_size_cutoff (tr : Transcoder) (args : Args) (e : Entry) (rest : List Entry)
    (fs : Fs) (rep : List FsPath) (b : Bytes) (rel : FsPath)
    (himg : isImageEntry e.path = false)
    (hfile : e.isFile = true)
    (hb : lookupFs fs e.path = some b)
    (hrel : stripRoot args.asset_path e.path = some rel) :
    (args.max_file_size * 2 ^ 20 ≤ b.length →
      runEntries tr args (e :: rest) fs rep = runEntries tr args rest fs rep)
    ∧ (b.length < args.max_file_size * 2 ^ 20 →
      ∃ fs2 rep2, runEntries tr args (e :: rest) fs rep = runEntries tr args rest fs2 rep2
        ∧ lookupFs fs2 (args.destination_path ++ rel) = some b) := by
  have hroute : routeEntry e = Route.plain := by
    simp [routeEntry, himg, hfile]
  constructor
  · intro hge
    have hnot : ¬ b.length < args.max_file_size * 2 ^ 20 := Nat.not_lt.mpr hge
    simp only [runEntries, hroute, hb]
    rw [if_neg hnot]
  · intro hlt
    by_cases hself : args.destination_path ++ rel = e.path
    · refine ⟨fs, rep ++ [e.path], ?_, ?_⟩
      · have hcopy := copy_file_as_is_self fs hrel hself
        simp only [runEntries, hroute, hb]
        rw [if_pos hlt, hcopy]
      · rw [hself, hb]
    · refine ⟨writeFs fs (args.destination_path ++ rel) b, rep, ?_,
        lookupFs_writeFs_self _ _ _⟩
      have hcopy := copy_file_as_is_write hrel hself hb
      simp only [runEntries, hroute, hb]
      rw [if_pos hlt, hcopy]

/-- Witness for claim C8: a 1-byte plain file is skipped under a zero
cutoff and copied byte-for-byte under the default cutoff. -/
theorem claim_C8_size_cutoff_witness :
    (runEntries c8Tr c8aArgs (c8Entry :: []) c8Fs [] = runEntries c8Tr c8aArgs [] c8Fs [])
    ∧ (∃ fs2 rep2,
        runEntries c8Tr c8bArgs (c8Entry :: []) c8Fs [] = runEntries c8Tr c8bArgs [] fs2 rep2
        ∧ lookupFs fs2 (c8bArgs.destination_path ++ ["b.bin".toList]) = some [1]) :=
  ⟨(claim_C8_size_cutoff c8Tr c8aArgs c8Entry [] c8Fs [] [1] ["b.bin".toList]
      (by decide) (by decide) (by decide) (by decide)).1 (by decide),
   (claim_C8_size_cutoff c8Tr c8bArgs c8Entry [] c8Fs [] [1] ["b.bin".toList]
      (by decide) (by decide) (by decide) (by decide)).2 (by decide)⟩

/-- Claim C2 (amended): a plain-copy failure is reported to the error stream
and the walk continues with the next entry; an image-conversion error,
however, is propagated out of the main loop by the question-mark operator
and aborts the whole run. -/
theorem claim_C2_per_file_failure (tr : Transcoder) (args : Args) (e : Entry)
    (rest : List Entry) (fs : Fs) (rep : List FsPath) :
    ((isImageEntry e.path = false) → (e.isFile = true) →
      ∀ b er fs2, lookupFs fs e.path = some b →
        b.length < args.max_file_size * 2 ^ 20 →
        copy_file_as_is e.path args fs = (some er, fs2) →
        runEntries tr args (e :: rest) fs rep = runEntries tr args rest fs2 (rep ++ [e.path]))
    ∧ ((isImageEntry e.path = true) →
      ∀ er s, convert_image tr args e.path fs = .err er s →
        runEntries tr args (e :: rest) fs rep = .fatal er s.fs rep) := by
  constructor
  · intro himg hfile b er fs2 hb hlt hcopy
    have hroute : routeEntry e = Route.plain := by
      simp [routeEntry, himg, hfile]
    simp only [runEntries, hroute, hb]
    rw [if_pos hlt, hcopy]
  · intro himg er s hconv
    have hroute : routeEntry e = Route.image := by
      simp [routeEntry, himg]
    simp [runEntries, hroute, hconv]

/-- Witness for claim C2: a failing self copy is reported and the run goes
on; a failing image conversion turns the whole run fatal. -/
theorem claim_C2_per_file_failure_witness :
    (runEntries c2Tr c2wArgs (c2wPlain :: []) c2wFs []
      = runEntries c2Tr c2wArgs [] c2wFs ([] ++ [c2wPlain.path]))
    ∧ (runEntries c2Tr c2Args (c2Img :: []) c2Fs []
      = .fatal Err.transcodeError c2Fs []) :=
  ⟨(claim_C2_per_file_failure c2Tr c2wArgs c2wPlain [] c2wFs []).1
      (by decide) (by decide) [1] Err.selfCopyError c2wFs (by decide) (by decide) (by decide),
   (claim_C2_per_file_failure c2Tr c2Args c2Img [] c2Fs []).2
      (by decide) Err.transcodeError ⟨c2Fs, [Tier.standard], []⟩ (by decide)⟩

/-- Counterexample to claim C2 as stated: a single image entry whose
conversion fails aborts the entire run, so the following plain file is
never copied. -/
theorem claim_C2_abort_cex :
    runEntries c2Tr c2Args [c2Img, c2Plain] c2Fs [] = .fatal Err.transcodeError c2Fs []
    ∧ lookupFs c2Fs ["dist".toList, "b.txt".toList] = none := by
  decide

/-- Claim C7 (amended): an entry is routed to the image branch exactly when
its extension literally equals one of jpg, JPG, png, PNG, jpeg, whether the
entry is a file or a directory; the remaining regular files go to the
plain-copy branch, the remaining directories are skipped, and a skipped
entry leaves the run state untouched. -/
theorem claim_C7_routing (e : Entry) :
    (routeEntry e = Route.image
      ↔ ∃ x, (fileStemExt (fileName e.path)).2 = some x ∧ x ∈ imageExts)
    ∧ (routeEntry e = Route.plain ↔ isImageEntry e.path = false ∧ e.isFile = true)
    ∧ (routeEntry e = Route.skipped ↔ isImageEntry e.path = false ∧ e.isFile = false)
    ∧ (∀ tr args rest fs rep, routeEntry e = Route.skipped →
        runEntries tr args (e :: rest) fs rep = runEntries tr args rest fs rep) := by
  have hiff : isImageEntry e.path = true
      ↔ ∃ x, (fileStemExt (fileName e.path)).2 = some x ∧ x ∈ imageExts := by
    rw [isImageEntry]
    cases hx : (fileStemExt (fileName e.path)).2 with
    | none => simp [hx]
    | some x => simp [hx]
  refine ⟨?_, ?_, ?_, ?_⟩
  · rw [← hiff, routeEntry]
    cases himg : isImageEntry e.path
    · cases hf : e.isFile <;> simp
    · simp
  · rw [routeEntry]
    cases himg : isImageEntry e.path <;> cases hf : e.isFile <;> simp [himg, hf]
  · rw [routeEntry]
    cases himg : isImageEntry e.path <;> cases hf : e.isFile <;> simp [himg, hf]
  · intro tr args rest fs rep hskip
    simp [runEntries, hskip]

/-- Witness for claim C7 at a concrete plain text file. -/
theorem claim_C7_routing_witness :
    (routeEntry c7File = Route.image
      ↔ ∃ x, (fileStemExt (fileName c7File.path)).2 = some x ∧ x ∈ imageExts)
    ∧ (routeEntry c7File = Route.plain ↔ isImageEntry c7File.path = false
        ∧ c7File.isFile = true)
    ∧ (routeEntry c7File = Route.skipped ↔ isImageEntry c7File.path = false
        ∧ c7File.isFile = false)
    ∧ (∀ tr args rest fs rep, routeEntry c7File = Route.skipped →
        runEntries tr args (c7File :: rest) fs rep = runEntries tr args rest fs rep) :=
  claim_C7_routing c7File

/-- Counterexample to claim C7 as stated: the extension JPEG equals jpeg
case-insensitively, yet the file is routed to the plain-copy branch, and a
directory named with a png extension is routed to the image branch instead
of being skipped. -/
theorem claim_C7_routing_cex :
    asciiLower "JPEG".toList = "jpeg".toList
    ∧ routeEntry c7Jpeg = Route.plain
    ∧ c7Dir.isFile = false
    ∧ routeEntry c7Dir = Route.image := by
  decide

/-- Claim C5 (amended): convert_image reports a transcode failure to its
caller only when spawning the external command fails; in particular a spawn
failure at the (regenerating) standard tier makes convert_image return a
TranscodeError with the filesystem untouched. A transcode that runs but
writes no output is not returned as an error (see the counterexample). -/
theorem claim_C5_transcode_error (tr : Transcoder) (args : Args) (sp : FsPath) (fs : Fs)
    (dp0 : FsPath) (e0 : Name)
    (h1 : get_destination_path sp args = some dp0)
    (h2 : (fileStemExt (fileName dp0)).2 = some e0)
    (h4 : (args.clean || !(existsFile fs (normBase dp0 e0))) = true)
    (h5 : tr sp Tier.standard = .spawnError) :
    convert_image tr args sp fs = .err Err.transcodeError ⟨fs, [Tier.standard], []⟩ := by
  have hstd : stdStep tr args sp (normBase dp0 e0) dp0 ⟨fs, [], []⟩
      = .err Err.transcodeError ⟨fs, [Tier.standard], []⟩ := by
    simp [stdStep, h4, h5]
  rw [convert_image, h1]
  simp only [h2, hstd]

/-- Witness for claim C5: a spawn failure on a clean rebuild yields a
TranscodeError. -/
theorem claim_C5_transcode_error_witness :
    convert_image c5Tr c5Args c5Src c5Fs
      = .err Err.transcodeError ⟨c5Fs, [Tier.standard], []⟩ :=
  claim_C5_transcode_error c5Tr c5Args c5Src c5Fs ["dist".toList, "a.jpg".toList]
    "jpg".toList (by decide) (by decide) (by decide) (by decide)

/-- Counterexample to claim C5 as stated: the thumbnail transcode runs but
produces no output at its destination, yet convert_image returns ok instead
of an error. -/
theorem claim_C5_no_output_cex :
    c5xTr c5xSrc Tier.thumb = TrResult.noOutput
    ∧ convert_image c5xTr c5xArgs c5xSrc c5xFs = .ok c5xFinal
    ∧ lookupFs c5xFinal.fs ["dist".toList, "a_thumb.jpg".toList] = none := by
  decide

/-- Claim C3 (confirmed): in a successful convert_image run, each tier
invokes the external transcoder exactly when the clean flag is set or the
tier destination does not exist in the filesystem state at the moment of
that tier's check; in particular with clean set every tier is regenerated,
and with clean unset a tier whose destination exists is skipped. -/
theorem claim_C3_regeneration (tr : Transcoder) (args : Args) (sp : FsPath) (fs : Fs)
    (dp0 : FsPath) (e0 : Name) (s' : CState)
    (h1 : get_destination_path sp args = some dp0)
    (h2 : (fileStemExt (fileName dp0)).2 = some e0)
    (h3 : convert_image tr args sp fs = .ok s') :
    ∃ s1 s2, stdStep tr args sp (normBase dp0 e0) dp0 ⟨fs, [], []⟩ = .ok s1
      ∧ highStep tr args sp (normBase dp0 e0) s1 = .ok s2
      ∧ thumbStep tr args sp (normBase dp0 e0) s2 = .ok s'
      ∧ (Tier.standard ∈ s'.calls
          ↔ (args.clean || !(existsFile fs (normBase dp0 e0))) = true)
      ∧ (Tier.high ∈ s'.calls
          ↔ (args.clean || !(existsFile s1.fs (highPath (normBase dp0 e0)))) = true)
      ∧ (Tier.thumb ∈ s'.calls
          ↔ (args.clean || !(existsFile s2.fs (thumbPath (normBase dp0 e0)))) = true) := by
  obtain ⟨s1, s2, hstd, hhigh, hthumb⟩ := convert_image_ok_decomp h1 h2 h3
  have hs1 : s1.calls = (if (args.clean || !(existsFile fs (normBase dp0 e0))) = true
      then [Tier.standard] else []) := by
    have hc := stdStep_state_calls tr args sp (normBase dp0 e0) dp0 ⟨fs, [], []⟩
    rw [hstd] at hc
    simpa using hc
  obtain ⟨hk1, -⟩ := highStep_ok_calls_cmps hhigh
  have hk2 := thumbStep_ok_calls hthumb
  refine ⟨s1, s2, hstd, hhigh, hthumb, ?_, ?_, ?_⟩ <;>
    rw [hk2, hk1, hs1] <;>
    by_cases hc1 : (args.clean || !(existsFile fs (normBase dp0 e0))) = true <;>
    by_cases hc2 : (args.clean || !(existsFile s1.fs (highPath (normBase dp0 e0)))) = true <;>
    by_cases hc3 : (args.clean || !(existsFile s2.fs (thumbPath (normBase dp0 e0)))) = true <;>
    simp [hc1, hc2, hc3]

/-- Witness for claim C3: a run where the standard tier was skipped because
its destination already existed while the high and thumbnail tiers were
regenerated. -/
theorem claim_C3_regeneration_witness :
    ∃ s1 s2, stdStep c3Tr c3Args c3Src
        (normBase ["dist".toList, "a.jpg".toList] "jpg".toList)
        ["dist".toList, "a.jpg".toList] ⟨c3Fs, [], []⟩ = .ok s1
      ∧ highStep c3Tr c3Args c3Src
          (normBase ["dist".toList, "a.jpg".toList] "jpg".toList) s1 = .ok s2
      ∧ thumbStep c3Tr c3Args c3Src
          (normBase ["dist".toList, "a.jpg".toList] "jpg".toList) s2 = .ok c3Final
      ∧ (Tier.standard ∈ c3Final.calls
          ↔ (c3Args.clean || !(existsFile c3Fs
              (normBase ["dist".toList, "a.jpg".toList] "jpg".toList))) = true)
      ∧ (Tier.high ∈ c3Final.calls
          ↔ (c3Args.clean || !(existsFile s1.fs
              (highPath (normBase ["dist".toList, "a.jpg".toList] "jpg".toList)))) = true)
      ∧ (Tier.thumb ∈ c3Final.calls
          ↔ (c3Args.clean || !(existsFile s2.fs
              (thumbPath (normBase ["dist".toList, "a.jpg".toList] "jpg".toList)))) = true) :=
  claim_C3_regeneration c3Tr c3Args c3Src c3Fs ["dist".toList, "a.jpg".toList]
    "jpg".toList c3Final (by decide) (by decide) (by decide)

/-- Claim C6 (amended): in a successful convert_image run the standard
tier's size comparison is always performed, even when that tier was skipped
under the incremental condition; the high tier's comparison is performed
exactly when its transcoder was invoked; the thumbnail tier never performs
a comparison. -/
theorem claim_C6_cmp_timing (tr : Transcoder) (args : Args) (sp : FsPath) (fs : Fs)
    (dp0 : FsPath) (e0 : Name) (s' : CState)
    (h1 : get_destination_path sp args = some dp0)
    (h2 : (fileStemExt (fileName dp0)).2 = some e0)
    (h3 : convert_image tr args sp fs = .ok s') :
    Tier.standard ∈ s'.cmps
    ∧ Tier.thumb ∉ s'.cmps
    ∧ (Tier.high ∈ s'.cmps ↔ Tier.high ∈ s'.calls) := by
  obtain ⟨s1, s2, hstd, hhigh, hthumb⟩ := convert_image_ok_decomp h1 h2 h3
  have hcmp1 : s1.cmps = [Tier.standard] := by
    simpa using stdStep_ok_cmps hstd
  have hs1 : s1.calls = (if (args.clean || !(existsFile fs (normBase dp0 e0))) = true
      then [Tier.standard] else []) := by
    have hc := stdStep_state_calls tr args sp (normBase dp0 e0) dp0 ⟨fs, [], []⟩
    rw [hstd] at hc
    simpa using hc
  obtain ⟨hk1, hk1c⟩ := highStep_ok_calls_cmps hhigh
  have hk2 := thumbStep_ok_calls hthumb
  have hcmps' : s'.cmps = s2.cmps := thumbStep_state_cmps_ok hthumb
  refine ⟨?_, ?_, ?_⟩
  · rw [hcmps', hk1c, hcmp1]
    simp
  · rw [hcmps', hk1c, hcmp1]
    by_cases hc2 : (args.clean || !(existsFile s1.fs (highPath (normBase dp0 e0)))) = true <;>
      simp [hc2]
  · rw [hcmps', hk1c, hcmp1, hk2, hk1, hs1]
    by_cases hc1 : (args.clean || !(existsFile fs (normBase dp0 e0))) = true <;>
    by_cases hc2 : (args.clean || !(existsFile s1.fs (highPath (normBase dp0 e0)))) = true <;>
    by_cases hc3 : (args.clean || !(existsFile s2.fs (thumbPath (normBase dp0 e0)))) = true <;>
    simp [hc1, hc2, hc3]

/-- Witness for claim C6 at the C6 scenario. -/
theorem claim_C6_cmp_timing_witness :
    Tier.standard ∈ c6Final.cmps
    ∧ Tier.thumb ∉ c6Final.cmps
    ∧ (Tier.high ∈ c6Final.cmps ↔ Tier.high ∈ c6Final.calls) :=
  claim_C6_cmp_timing c6Tr c6Args c6Src c6Fs ["dist".toList, "a.jpg".toList]
    "jpg".toList c6Final (by decide) (by decide) (by decide)

/-- Counterexample to claim C6 as stated: with clean unset and an existing
standard destination, the standard tier is skipped (no transcoder call) but
its size comparison is still performed. -/
theorem claim_C6_skipped_cmp_cex :
    convert_image c6Tr c6Args c6Src c6Fs = .ok c6Final
    ∧ Tier.standard ∉ c6Final.calls
    ∧ Tier.standard ∈ c6Final.cmps := by
  decide

/-- Claim C10 (confirmed): under the precondition that the source file
exists and that, for the standard and high tiers, a readable file is at the
tier destination after the regeneration step (either the transcoder writes
output or the destination already existed), the metadata reads of
convert_image never panic: the function returns ok or an error. -/
theorem claim_C10_no_panic (tr : Transcoder) (args : Args) (sp : FsPath) (fs : Fs)
    (dp0 : FsPath) (e0 : Name)
    (h1 : get_destination_path sp args = some dp0)
    (h2 : (fileStemExt (fileName dp0)).2 = some e0)
    (hsrc : (lookupFs fs sp).isSome = true)
    (hstd : (∃ b, tr sp Tier.standard = .wrote b)
        ∨ existsFile fs (normBase dp0 e0) = true)
    (hhigh : (∃ b, tr sp Tier.high = .wrote b)
        ∨ existsFile fs (highPath (normBase dp0 e0)) = true) :
    (∃ s, convert_image tr args sp fs = .ok s)
    ∨ (∃ e s, convert_image tr args sp fs = .err e s) := by
  have hbex := normBase_ext h2
  rw [convert_image, h1]
  simp only [h2]
  rcases stdStep_no_panic tr args sp (normBase dp0 e0) dp0 ⟨fs, [], []⟩ hsrc hstd
    with ⟨s1, hs1⟩ | ⟨s1, hs1⟩
  · simp only [hs1]
    have hs1src : (lookupFs s1.fs sp).isSome = true := by
      have hm := stdStep_exists_mono (q := sp) (s := ⟨fs, [], []⟩)
        tr args sp (normBase dp0 e0) dp0 hsrc
      rw [hs1] at hm
      exact hm
    have hs1high : (∃ b, tr sp Tier.high = .wrote b)
        ∨ existsFile s1.fs (highPath (normBase dp0 e0)) = true := by
      rcases hhigh with hw | hex
      · exact Or.inl hw
      · refine Or.inr ?_
        have hm := stdStep_exists_mono (q := highPath (normBase dp0 e0)) (s := ⟨fs, [], []⟩)
          tr args sp (normBase dp0 e0) dp0 hex
        rw [hs1] at hm
        exact hm
    rcases highStep_no_panic tr args sp (normBase dp0 e0) s1 hbex hs1src hs1high
      with ⟨s2, hs2⟩ | ⟨s2, hs2⟩
    · simp only [hs2]
      rcases thumbStep_no_panic tr args sp (normBase dp0 e0) s2 hbex
        with ⟨s3, hs3⟩ | ⟨s3, hs3⟩
      · exact Or.inl ⟨s3, hs3⟩
      · exact Or.inr ⟨Err.transcodeError, s3, hs3⟩
    · refine Or.inr ⟨Err.transcodeError, s2, ?_⟩
      simp only [hs2]
  · refine Or.inr ⟨Err.transcodeError, s1, ?_⟩
    simp only [hs1]

/-- Witness for claim C10: a clean rebuild with a transcoder that always
writes output finishes without panicking. -/
theorem claim_C10_no_panic_witness :
    (∃ s, convert_image c10Tr c10Args c10Src c10Fs = .ok s)
    ∨ (∃ e s, convert_image c10Tr c10Args c10Src c10Fs = .err e s) :=
  claim_C10_no_panic c10Tr c10Args c10Src c10Fs c10Dp0 "jpg".toList
    (by decide) (by decide) (by decide)
    (Or.inl ⟨[1], rfl⟩) (Or.inl ⟨[1], rfl⟩)

/-- Claim C1 (amended): the size-regression fallback is guaranteed for the
high tier only: when the high tier was regenerated in a successful run with
generated bytes strictly longer than the source bytes, the final bytes at
the high destination equal the source bytes exactly. The standard tier
writes its fallback copy to the pre-normalization destination path, which
matches the tier destination only for non-png sources, and the thumbnail
tier has no fallback at all (see the counterexample). -/
theorem claim_C1_high_fallback (tr : Transcoder) (args : Args) (sp : FsPath) (fs : Fs)
    (dp0 : FsPath) (e0 : Name) (s' : CState) (b sb : Bytes)
    (h1 : get_destination_path sp args = some dp0)
    (h2 : (fileStemExt (fileName dp0)).2 = some e0)
    (h3 : convert_image tr args sp fs = .ok s')
    (hcall : Tier.high ∈ s'.calls)
    (htr : tr sp Tier.high = .wrote b)
    (hsrc : lookupFs fs sp = some sb)
    (hbig : sb.length < b.length)
    (hne1 : sp ≠ normBase dp0 e0)
    (hne2 : sp ≠ dp0)
    (hne3 : sp ≠ highPath (normBase dp0 e0)) :
    lookupFs s'.fs (highPath (normBase dp0 e0)) = some sb := by
  obtain ⟨s1, s2, hstd, hhigh, hthumb⟩ := convert_image_ok_decomp h1 h2 h3
  have hs1src : lookupFs s1.fs sp = some sb := by
    have hfr := stdStep_fs_frame (q := sp) tr args sp (normBase dp0 e0) dp0
      ⟨fs, [], []⟩ hne1 hne2
    rw [hstd] at hfr
    exact hfr.trans hsrc
  have hs1calls : s1.calls = (if (args.clean || !(existsFile fs (normBase dp0 e0))) = true
      then [Tier.standard] else []) := by
    have hc := stdStep_state_calls tr args sp (normBase dp0 e0) dp0 ⟨fs, [], []⟩
    rw [hstd] at hc
    simpa using hc
  obtain ⟨hk1, -⟩ := highStep_ok_calls_cmps hhigh
  have hcall2 : Tier.high ∈ s2.calls := by
    have hk2 := thumbStep_ok_calls hthumb
    rw [hk2] at hcall
    rcases List.mem_append.mp hcall with h | h
    · exact h
    · by_cases hc3 : (args.clean
          || !(existsFile s2.fs (thumbPath (normBase dp0 e0)))) = true
      · rw [if_pos hc3] at h
        simp at h
      · rw [if_neg hc3] at h
        simp at h
  have hc2 : (args.clean || !(existsFile s1.fs (highPath (normBase dp0 e0)))) = true := by
    rw [hk1] at hcall2
    rcases List.mem_append.mp hcall2 with h | h
    · rw [hs1calls] at h
      by_cases hc1 : (args.clean || !(existsFile fs (normBase dp0 e0))) = true
      · rw [if_pos hc1] at h
        simp at h
      · rw [if_neg hc1] at h
        simp at h
    · by_cases hc2 : (args.clean
          || !(existsFile s1.fs (highPath (normBase dp0 e0)))) = true
      · exact hc2
      · rw [if_neg hc2] at h
        simp at h
  have hwb := highStep_wrote_big (normBase_ext h2) hc2 htr hs1src hne3 hbig
  rw [hwb] at hhigh
  have hs2 : s2 = ⟨writeFs (writeFs s1.fs (highPath (normBase dp0 e0)) b)
      (highPath (normBase dp0 e0)) sb, s1.calls ++ [Tier.high], s1.cmps ++ [Tier.high]⟩ := by
    simpa using hhigh.symm
  have hfr2 := thumbStep_fs_frame (q := highPath (normBase dp0 e0)) tr args sp
    (normBase dp0 e0) s2 (highPath_ne_thumbPath _)
  rw [hthumb] at hfr2
  refine hfr2.trans ?_
  rw [hs2]
  exact lookupFs_writeFs_self _ _ _

/-- Witness for claim C1: the high derivative of the C1 scenario is larger
than the source, and the final high destination holds the source bytes. -/
theorem claim_C1_high_fallback_witness :
    lookupFs c1Final.fs
        (highPath (normBase ["dist".toList, "photo.png".toList] "png".toList))
      = some [0, 0] :=
  claim_C1_high_fallback c1Tr c1Args c1Src c1Fs ["dist".toList, "photo.png".toList]
    "png".toList c1Final [1, 2, 3] [0, 0]
    (by decide) (by decide) (by decide) (by decide) (by decide) (by decide)
    (by decide) (by decide) (by decide) (by decide)

/-- Counterexample to claim C1 as stated: every generated derivative of the
2-byte png source is 3 bytes, larger than the source, yet after the run the
thumbnail destination holds the 3-byte derivative and the standard tier
destination photo.jpg also holds the 3-byte derivative, because the
standard fallback copied the original to photo.png instead. -/
theorem claim_C1_fallback_cex :
    c1Tr c1Src Tier.thumb = TrResult.wrote [1, 2, 3]
    ∧ lookupFs c1Fs c1Src = some [0, 0]
    ∧ convert_image c1Tr c1Args c1Src c1Fs = .ok c1Final
    ∧ lookupFs c1Final.fs ["dist".toList, "photo_thumb.jpg".toList] = some [1, 2, 3]
    ∧ lookupFs c1Final.fs ["dist".toList, "photo.jpg".toList] = some [1, 2, 3] := by
  decide

/-- Claim C4 (amended): for a source image relpath slash name dot ext under
the asset root, the three tier destinations are destRoot slash relpath
slash the stem with, respectively, no suffix, _high, and _thumb, all
carrying extension E, where E is jpg when ext lowercases to png and is the
unchanged source extension otherwise (so jpeg and upper-case JPG sources
keep their extension, contrary to the literal claim). -/
theorem claim_C4_paths (args : Args) (rel : FsPath) (stem ext : Name)
    (hstem : stem ≠ []) (hext : '.' ∉ ext) :
    get_destination_path (args.asset_path ++ (rel ++ [stem ++ '.' :: ext])) args
        = some (args.destination_path ++ (rel ++ [stem ++ '.' :: ext]))
    ∧ (fileStemExt (fileName (args.destination_path ++ (rel ++ [stem ++ '.' :: ext])))).2
        = some ext
    ∧ normBase (args.destination_path ++ (rel ++ [stem ++ '.' :: ext])) ext
        = (args.destination_path ++ rel)
          ++ [stem ++ '.' :: (if asciiLower ext = pngExt then jpgExt else ext)]
    ∧ highPath (normBase (args.destination_path ++ (rel ++ [stem ++ '.' :: ext])) ext)
        = (args.destination_path ++ rel)
          ++ [stem ++ highSfx ++ (if asciiLower ext = pngExt then jpgExt else ext)]
    ∧ thumbPath (normBase (args.destination_path ++ (rel ++ [stem ++ '.' :: ext])) ext)
        = (args.destination_path ++ rel)
          ++ [stem ++ thumbSfx ++ (if asciiLower ext = pngExt then jpgExt else ext)] := by
  have hasc : args.destination_path ++ (rel ++ [stem ++ '.' :: ext])
      = (args.destination_path ++ rel) ++ [stem ++ '.' :: ext] :=
    (List.append_assoc _ _ _).symm
  have hfn : fileName (args.destination_path ++ (rel ++ [stem ++ '.' :: ext]))
      = stem ++ '.' :: ext := by
    rw [hasc]
    exact fileName_concat _ _
  have hfse := fileStemExt_concat hstem hext
  have hEdot : '.' ∉ (if asciiLower ext = pngExt then jpgExt else ext) := by
    split
    · decide
    · exact hext
  have hbase : normBase (args.destination_path ++ (rel ++ [stem ++ '.' :: ext])) ext
      = (args.destination_path ++ rel)
        ++ [stem ++ '.' :: (if asciiLower ext = pngExt then jpgExt else ext)] := by
    rw [normBase]
    by_cases hp : asciiLower ext = pngExt
    · rw [if_pos hp, if_pos hp, setExtension, hfn, hfse, hasc, withFileName_concat]
    · rw [if_neg hp, if_neg hp, hasc]
  refine ⟨?_, ?_, hbase, ?_, ?_⟩
  · simp only [get_destination_path, stripRoot_append]
  · rw [hfn, hfse]
  · rw [hbase, highPath, tierPath, fileName_concat, fileStemExt_concat hstem hEdot,
      withFileName_concat]
    rfl
  · rw [hbase, thumbPath, tierPath, fileName_concat, fileStemExt_concat hstem hEdot,
      withFileName_concat]
    rfl

/-- Witness for claim C4 at a png source directly under the asset root. -/
theorem claim_C4_paths_witness :
    get_destination_path (c4Args.asset_path ++ ([] ++ ["photo".toList ++ '.' :: "png".toList]))
        c4Args
        = some (c4Args.destination_path ++ ([] ++ ["photo".toList ++ '.' :: "png".toList]))
    ∧ (fileStemExt (fileName (c4Args.destination_path
        ++ ([] ++ ["photo".toList ++ '.' :: "png".toList])))).2 = some "png".toList
    ∧ normBase (c4Args.destination_path ++ ([] ++ ["photo".toList ++ '.' :: "png".toList]))
          "png".toList
        = (c4Args.destination_path ++ [])
          ++ ["photo".toList ++ '.' :: (if asciiLower "png".toList = pngExt
              then jpgExt else "png".toList)]
    ∧ highPath (normBase (c4Args.destination_path
          ++ ([] ++ ["photo".toList ++ '.' :: "png".toList])) "png".toList)
        = (c4Args.destination_path ++ [])
          ++ ["photo".toList ++ highSfx ++ (if asciiLower "png".toList = pngExt
              then jpgExt else "png".toList)]
    ∧ thumbPath (normBase (c4Args.destination_path
          ++ ([] ++ ["photo".toList ++ '.' :: "png".toList])) "png".toList)
        = (c4Args.destination_path ++ [])
          ++ ["photo".toList ++ thumbSfx ++ (if asciiLower "png".toList = pngExt
              then jpgExt else "png".toList)] :=
  claim_C4_paths c4Args [] "photo".toList "png".toList (by decide) (by decide)

/-- Counterexample to claim C4 as stated: a recognized jpeg source maps to
destinations that keep the jpeg extension, not the claimed jpg one. -/
theorem claim_C4_ext_cex :
    isImageEntry ["assets".toList, "photo.jpeg".toList] = true
    ∧ get_destination_path ["assets".toList, "photo.jpeg".toList] c4Args
      = some ["dist".toList, "photo.jpeg".toList]
    ∧ (fileStemExt (fileName (["dist".toList, "photo.jpeg".toList] : FsPath))).2
      = some "jpeg".toList
    ∧ normBase ["dist".toList, "photo.jpeg".toList] "jpeg".toList
      = ["dist".toList, "photo.jpeg".toList]
    ∧ normBase ["dist".toList, "photo.jpeg".toList] "jpeg".toList
      ≠ (["dist".toList, "photo.jpg".toList] : FsPath)
    ∧ highPath (normBase ["dist".toList, "photo.jpeg".toList] "jpeg".toList)
      = ["dist".toList, "photo_high.jpeg".toList] := by
  decide

end WebAssets
